import Mathlib

/-!
Verification of the PostgreSQL extension reconciler
(`pkg/controller/postgresql/extension/reconciler.go`).

The reconciler manages one external resource kind, a PostgreSQL
extension.  Its core logic is pure: the comparator `upToDate`, the
late-initialisation merge `lateInit`, and the four lifecycle entry
points `Observe` / `Create` / `Update` / `Delete`, each of which builds
at most one SQL command and hands it to an injected executor.  We embed
the executor as a record of response functions (`DB`) and each entry
point as a pure function returning the issued queries, the (possibly
mutated) desired spec, and the returned error, mirroring the Go control
flow statement by statement.
-/

namespace ProviderPostgreSQL

/-- Error label constant `errNotExtension` from `reconciler.go`. -/
def errNotExtension : String := "managed resource is not a Extension custom resource"

/-- Error label constant `errSelectExtension` from `reconciler.go`. -/
def errSelectExtension : String := "cannot select extension"

/-- Error label constant `errCreateExtension` from `reconciler.go`. -/
def errCreateExtension : String := "cannot create extension"

/-- Error label constant `errDropExtension` from `reconciler.go`. -/
def errDropExtension : String := "cannot drop extension"

/-- Modelled from the spec: the `v1alpha1.ExtensionParameters` struct (the
`apis/postgresql/v1alpha1` package is not under `src/`).  Per spec §3 the
desired spec has `name` (required), `version` (optional, nil = any) and
`template` (optional, create-only).  The field representations follow their
use in `reconciler.go`: `Extension` is a plain string (compared against `""`,
dereferenced with `*&`), `Version` is a string pointer (compared against
`nil`), `Template` is named by `cmpopts.IgnoreFields` and never otherwise
read, so we give it the optional representation the spec describes. -/
structure ExtensionParameters where
  Extension : String
  Version : Option String
  Template : Option String
deriving DecidableEq, Repr

/-- `xsql.Query`: a command string plus ordered parameter list, as in the
outbound executor contract. -/
structure Query where
  string : String
  parameters : List String
deriving DecidableEq, Repr

/-- Result of the executor's single-row `Scan`: the recognisable "no rows"
classification, any other error, or a scanned `extversion` column value. -/
inductive ScanResult where
  | noRows : ScanResult
  | err : String → ScanResult
  | ok : String → ScanResult
deriving DecidableEq, Repr

/-- The injected executor (`xsql.DB`): responses to `Scan` and `Exec`.
`exec q = none` means the command succeeded; `some e` is the error text. -/
structure DB where
  scan : Query → ScanResult
  exec : Query → Option String

/-- `managed.ExternalObservation`: the outcome record Observe returns. -/
structure ExternalObservation where
  ResourceExists : Bool
  ResourceLateInitialized : Bool
  ResourceUpToDate : Bool
deriving DecidableEq, Repr

/-- Character-level translation of `strings.Replace(name, QUOTE, QUOTE+QUOTE, -1)`
used by `pq.QuoteIdentifier`: every double-quote character is doubled. -/
def escapeQuotes : List Char → List Char
  | [] => []
  | c :: cs => if c = '"' then '"' :: '"' :: escapeQuotes cs else c :: escapeQuotes cs

/-- `pq.QuoteIdentifier` from the `lib/pq` dependency: truncate at the first
NUL rune, double every embedded double quote, and wrap the result in double
quotes.  (Written via the character list; the string produced is exactly
`QUOTE ++ replaced ++ QUOTE`.) -/
def quoteIdentifier (name : String) : String :=
  String.mk ('"' :: escapeQuotes (name.data.takeWhile (fun c => c != '\x00')) ++ ['"'])

/-- `upToDate` from `reconciler.go`: structural equality of observed and
desired parameters, ignoring the `Template` field
(`cmp.Equal(desired, observed, cmpopts.IgnoreFields(..., "Template"))`;
`cmp` compares the `Version` pointers by pointee). -/
def upToDate (observed desired : ExtensionParameters) : Bool :=
  desired.Extension == observed.Extension && desired.Version == observed.Version

/-- `lateInit` from `reconciler.go`: fill each unset desired field from the
observed value.  The Go function mutates `desired` in place and returns the
`li` flag; we return the updated spec together with the flag. -/
def lateInit (observed desired : ExtensionParameters) : ExtensionParameters × Bool :=
  let li := false
  let p := if desired.Extension = ""
    then ({ desired with Extension := observed.Extension }, true)
    else (desired, li)
  let p := if p.1.Version = none
    then ({ p.1 with Version := observed.Version }, true)
    else p
  p

/-- The point-lookup query Observe issues, parameterised by the resource's
external name (`meta.GetExternalName(cr)`).  The string is the source's
literal concatenation, including its stray comma before `FROM`. -/
def observeQuery (externalName : String) : Query :=
  { string := "SELECT extversion, FROM pg_extension WHERE extname=$1"
    parameters := [externalName] }

/-- `external.Observe` from `reconciler.go`, for a resource that passed the
Extension type assertion.  The source initialises
`observed = ExtensionParameters{Extension: new(string), Version: new(string)}`
and scans only `extversion` into `observed.Version`, so after a successful
scan the observed `Extension` still holds the fresh zero value `""` — it is
never filled from the row or from the identity.  "No rows" maps to
not-found with a nil error; other scan errors are wrapped with
`errSelectExtension`.  On success it runs `lateInit` on the desired spec and
then `upToDate` against the mutated spec, in that order.  Returns the
observation, the (possibly mutated) desired spec, and the error. -/
def Observe (db : DB) (externalName : String) (desired : ExtensionParameters) :
    ExternalObservation × ExtensionParameters × Option String :=
  match db.scan (observeQuery externalName) with
  | ScanResult.noRows =>
      ({ ResourceExists := false, ResourceLateInitialized := false, ResourceUpToDate := false },
        desired, none)
  | ScanResult.err e =>
      ({ ResourceExists := false, ResourceLateInitialized := false, ResourceUpToDate := false },
        desired, some (errSelectExtension ++ ": " ++ e))
  | ScanResult.ok v =>
      let observed : ExtensionParameters := { Extension := "", Version := some v, Template := none }
      let p := lateInit observed desired
      ({ ResourceExists := true, ResourceLateInitialized := p.2, ResourceUpToDate := upToDate observed p.1 },
        p.1, none)

/-- The `CREATE EXTENSION` command text `external.Create` builds with its
`strings.Builder`: the quoted extension name when non-empty, then
`VERSION` plus the quoted version when the version pointer is non-nil.
The `Template` field is never read. -/
def createCommand (p : ExtensionParameters) : String :=
  let b := "CREATE EXTENSION "
  let b := if p.Extension ≠ "" then b ++ quoteIdentifier p.Extension else b
  match p.Version with
  | some v => b ++ " VERSION " ++ quoteIdentifier v
  | none => b

/-- `external.Create`: issues the single built command and wraps any executor
error with `errCreateExtension`.  Returns the issued queries and the error. -/
def Create (db : DB) (p : ExtensionParameters) : List Query × Option String :=
  let q : Query := { string := createCommand p, parameters := [] }
  ([q], (db.exec q).map (fun e => errCreateExtension ++ ": " ++ e))

/-- `external.Update`: after the type assertion the body is
`return managed.ExternalUpdate{}, nil` — no command, no error. -/
def Update (_db : DB) (_p : ExtensionParameters) : List Query × Option String :=
  ([], none)

/-- The `DROP EXTENSION` command `external.Delete` builds from the resource's
external name. -/
def deleteCommand (externalName : String) : String :=
  "DROP EXTENSION " ++ quoteIdentifier externalName

/-- `external.Delete`: issues the single drop command and wraps any executor
error with `errDropExtension`. -/
def Delete (db : DB) (externalName : String) : List Query × Option String :=
  let q : Query := { string := deleteCommand externalName, parameters := [] }
  ([q], (db.exec q).map (fun e => errDropExtension ++ ": " ++ e))

/-- Substring occurrence on character lists: `occursIn pat hay` is true when
`pat` occurs contiguously inside `hay`. -/
def occursIn (pat : List Char) : List Char → Bool
  | [] => pat.isEmpty
  | c :: cs => pat.isPrefixOf (c :: cs) || occursIn pat cs

/-- `containsStr hay pat`: `pat` occurs contiguously inside `hay`. -/
def containsStr (hay pat : String) : Bool :=
  occursIn pat.data hay.data

/-- An executor whose lookup finds a row with `extversion = "1.3"` and whose
commands all succeed. -/
def db13 : DB :=
  { scan := fun _ => ScanResult.ok "1.3", exec := fun _ => none }

/-- An executor whose lookup finds no row and whose commands all succeed. -/
def dbNoRows : DB :=
  { scan := fun _ => ScanResult.noRows, exec := fun _ => none }

/-- An executor whose commands all fail with error text `"boom"`. -/
def dbBoom : DB :=
  { scan := fun _ => ScanResult.noRows, exec := fun _ => some "boom" }

/-- Claim C1, evaluated on the code: for desired `{name: "pgcrypto", version: nil}`
and a live row whose version is `"1.3"`, Observe returns Found with
`ResourceLateInitialized = true` and mutates the desired version to `"1.3"` —
but, because the source never fills the observed name from the row or the
identity, the post-lookup observed spec is `{Extension := "", Version := some "1.3"}`
and `ResourceUpToDate` comes out `false`; on the pair the claim describes
(observed name `"pgcrypto"`), `upToDate` would be `true`. -/
theorem c1_observe_pgcrypto_eval :
    Observe db13 "pgcrypto" ⟨"pgcrypto", none, none⟩ =
      (⟨true, true, false⟩, ⟨"pgcrypto", some "1.3", none⟩, none) ∧
    upToDate ⟨"", some "1.3", none⟩ ⟨"pgcrypto", some "1.3", none⟩ = false ∧
    upToDate ⟨"pgcrypto", some "1.3", none⟩ ⟨"pgcrypto", some "1.3", none⟩ = true := by
  decide

/-- Claim C2, counterexample: when the observed name is itself empty, a second
`lateInit` call on the already-merged desired state returns `true` again, not
`false` — the claim's "second call returns false" fails on this pair. -/
theorem c2_second_call_not_noop :
    (lateInit ⟨"", some "1.2", none⟩
      (lateInit ⟨"", some "1.2", none⟩ ⟨"", none, none⟩).1).2 = true := by
  decide

/-- Claim C2, amended: `lateInit` returns `true` iff at least one desired
field was unset (empty name or nil version) before the call, and — provided
the observed state's own fields are set (non-empty name, non-nil version) —
a second call on the merged desired state fills nothing and returns `false`. -/
theorem c2_lateInit_fill_iff (observed desired : ExtensionParameters)
    (h1 : observed.Extension ≠ "") (h2 : observed.Version ≠ none) :
    ((lateInit observed desired).2 = true ↔
      (desired.Extension = "" ∨ desired.Version = none)) ∧
    lateInit observed (lateInit observed desired).1 =
      ((lateInit observed desired).1, false) := by
  unfold lateInit
  by_cases he : desired.Extension = "" <;> by_cases hv : desired.Version = none <;>
    simp [he, hv, h1, h2]

/-- Claim C2, witness for the amended theorem at observed
`{Extension := "obs", Version := some "1.2"}` and desired `{Extension := "", Version := none}`. -/
theorem c2_lateInit_fill_iff_witness :
    (((lateInit ⟨"obs", some "1.2", none⟩ ⟨"", none, none⟩).2 = true) ↔
      ((("" : String) = "") ∨ ((none : Option String) = none))) ∧
    lateInit ⟨"obs", some "1.2", none⟩
        (lateInit ⟨"obs", some "1.2", none⟩ ⟨"", none, none⟩).1 =
      ((lateInit ⟨"obs", some "1.2", none⟩ ⟨"", none, none⟩).1, false) :=
  c2_lateInit_fill_iff ⟨"obs", some "1.2", none⟩ ⟨"", none, none⟩ (by decide) (by decide)

/-- Claim C8: `Update` is a total no-op — for every executor and every desired
spec it issues zero commands and returns no error. -/
theorem c8_update_noop (db : DB) (p : ExtensionParameters) :
    Update db p = ([], none) :=
  rfl

/-- Claim C5: `lateInit` never overwrites a desired field that is already set —
a non-empty name and a non-nil version survive the call unchanged, whatever
the observed values are. -/
theorem c5_lateInit_preserves_set (observed desired : ExtensionParameters) :
    (desired.Extension ≠ "" → (lateInit observed desired).1.Extension = desired.Extension) ∧
    (∀ v, desired.Version = some v → (lateInit observed desired).1.Version = some v) := by
  unfold lateInit
  by_cases he : desired.Extension = "" <;> by_cases hv : desired.Version = none <;>
    simp [he, hv]

/-- Claim C5, witness: desired `{Extension := "keep", Version := some "1.0"}`
is untouched by `lateInit` against a differing observed state. -/
theorem c5_lateInit_preserves_set_witness :
    (lateInit ⟨"obs", some "9.9", none⟩ ⟨"keep", some "1.0", none⟩).1.Extension = "keep" ∧
    (lateInit ⟨"obs", some "9.9", none⟩ ⟨"keep", some "1.0", none⟩).1.Version = some "1.0" :=
  ⟨(c5_lateInit_preserves_set ⟨"obs", some "9.9", none⟩ ⟨"keep", some "1.0", none⟩).1
      (by decide),
   (c5_lateInit_preserves_set ⟨"obs", some "9.9", none⟩ ⟨"keep", some "1.0", none⟩).2
      "1.0" (by decide)⟩

/-- Claim C6: `upToDate` is reflexive and template-insensitive — it is true on
any pair of parameter values that agree on `Extension` and `Version`, whatever
their `Template` fields are. -/
theorem c6_upToDate_refl_template_insensitive (x y : ExtensionParameters)
    (h1 : x.Extension = y.Extension) (h2 : x.Version = y.Version) :
    upToDate x x = true ∧ upToDate x y = true ∧ upToDate y x = true := by
  simp [upToDate, h1, h2]

/-- Claim C6, witness: two fully-specified values differing only in `Template`. -/
theorem c6_upToDate_refl_template_insensitive_witness :
    upToDate ⟨"pgcrypto", some "1.3", some "a"⟩ ⟨"pgcrypto", some "1.3", some "a"⟩ = true ∧
    upToDate ⟨"pgcrypto", some "1.3", some "a"⟩ ⟨"pgcrypto", some "1.3", some "b"⟩ = true ∧
    upToDate ⟨"pgcrypto", some "1.3", some "b"⟩ ⟨"pgcrypto", some "1.3", some "a"⟩ = true :=
  c6_upToDate_refl_template_insensitive ⟨"pgcrypto", some "1.3", some "a"⟩
    ⟨"pgcrypto", some "1.3", some "b"⟩ rfl rfl

/-- Claim C7: when the lookup reports no matching row, `Observe` returns
not-found with a nil error and hands back the desired spec unchanged, with
both the late-init and up-to-date flags false (the merge and comparison are
never run). -/
theorem c7_observe_no_rows (db : DB) (n : String) (desired : ExtensionParameters)
    (h : db.scan (observeQuery n) = ScanResult.noRows) :
    Observe db n desired = (⟨false, false, false⟩, desired, none) := by
  unfold Observe
  rw [h]

/-- Claim C7, witness: an executor that finds no row. -/
theorem c7_observe_no_rows_witness :
    Observe dbNoRows "missing" ⟨"pgcrypto", none, none⟩ =
      (⟨false, false, false⟩, ⟨"pgcrypto", none, none⟩, none) :=
  c7_observe_no_rows dbNoRows "missing" ⟨"pgcrypto", none, none⟩ rfl

/-- A list is a Boolean prefix of itself followed by anything. -/
theorem isPrefixOf_self_append (l r : List Char) : l.isPrefixOf (l ++ r) = true := by
  induction l with
  | nil => simp
  | cons a as ih => simp [List.isPrefixOf_cons₂, ih]

/-- A list occurs inside itself followed by anything. -/
theorem occursIn_self_append (l r : List Char) : occursIn l (l ++ r) = true := by
  cases l with
  | nil =>
    cases r with
    | nil => rfl
    | cons c cs => simp [occursIn]
  | cons a as =>
    have h := isPrefixOf_self_append (a :: as) r
    simp [occursIn, List.cons_append] at h ⊢

/-- A string occurs at the front of itself appended with anything. -/
theorem containsStr_left (s t : String) : containsStr (s ++ t) s = true := by
  show occursIn s.data (s ++ t).data = true
  rw [String.data_append]
  exact occursIn_self_append s.data t.data

/-- Claim C9: `Delete` issues exactly the one drop command; its returned error
is nil when the executor succeeds, and on executor failure it is the executor
error wrapped so that its message contains the fixed `errDropExtension` label. -/
theorem c9_delete_single_command_labelled (db : DB) (n : String) :
    (Delete db n).1 = [⟨deleteCommand n, []⟩] ∧
    (db.exec ⟨deleteCommand n, []⟩ = none → (Delete db n).2 = none) ∧
    (∀ e, db.exec ⟨deleteCommand n, []⟩ = some e →
      (Delete db n).2 = some (errDropExtension ++ ": " ++ e) ∧
      containsStr (errDropExtension ++ ": " ++ e) errDropExtension = true) := by
  refine ⟨rfl, ?_, ?_⟩
  · intro h
    show ((db.exec ⟨deleteCommand n, []⟩).map
      (fun e => errDropExtension ++ ": " ++ e)) = none
    rw [h]
    rfl
  · intro e h
    constructor
    · show ((db.exec ⟨deleteCommand n, []⟩).map
        (fun e => errDropExtension ++ ": " ++ e)) = some (errDropExtension ++ ": " ++ e)
      rw [h]
      rfl
    · exact containsStr_left errDropExtension (": " ++ e)

/-- Claim C9, witness: a failing executor yields the labelled error; a
succeeding one yields nil. -/
theorem c9_delete_single_command_labelled_witness :
    (Delete dbBoom "ext1").1 = [⟨deleteCommand "ext1", []⟩] ∧
    (Delete dbBoom "ext1").2 = some (errDropExtension ++ ": " ++ "boom") ∧
    containsStr (errDropExtension ++ ": " ++ "boom") errDropExtension = true ∧
    (Delete dbNoRows "ext1").2 = none :=
  ⟨(c9_delete_single_command_labelled dbBoom "ext1").1,
   ((c9_delete_single_command_labelled dbBoom "ext1").2.2 "boom" rfl).1,
   ((c9_delete_single_command_labelled dbBoom "ext1").2.2 "boom" rfl).2,
   (c9_delete_single_command_labelled dbNoRows "ext1").2.1 rfl⟩

/-- Claim C4, evaluated on the code: the `Template` field is consulted
nowhere.  `Create` builds the identical command whether the template is set
or nil and the command carries no trace of it — contradicting the claim (and
the source's own comment that the template is used at create time) — while
`upToDate` and `lateInit` are indeed independent of it, as the final two
general conjuncts state. -/
theorem c4_template_never_consulted_eval :
    (createCommand ⟨"ext1", some "2.0", some "tmpl"⟩ =
      createCommand ⟨"ext1", some "2.0", none⟩ ∧
    containsStr (createCommand ⟨"ext1", some "2.0", some "tmpl"⟩) "tmpl" = false ∧
    upToDate ⟨"e", some "1", some "a"⟩ ⟨"e", some "1", some "b"⟩ = true ∧
    (lateInit ⟨"e", some "1", some "a"⟩ ⟨"", none, some "b"⟩).1.Template = some "b") ∧
    (∀ (p : ExtensionParameters) (t : Option String),
      createCommand { p with Template := t } = createCommand p) ∧
    (∀ (o d : ExtensionParameters) (t u : Option String),
      upToDate { o with Template := t } { d with Template := u } = upToDate o d) :=
  ⟨by decide, fun _ _ => rfl, fun _ _ _ _ => rfl⟩

/-- Claim C3: user-controlled strings reach the Create and Delete command
texts only through `quoteIdentifier` — the commands are exactly fixed SQL
words around quoted identifiers (first two conjuncts) — and on the spec's
concrete instances the quoted forms occur in the command while an identity
containing a double quote, `foo"bar`, never occurs verbatim. -/
theorem c3_commands_quote_identifiers :
    (∀ n, deleteCommand n = "DROP EXTENSION " ++ quoteIdentifier n) ∧
    (∀ p : ExtensionParameters,
      createCommand p =
        (match p.Version with
        | some v =>
            (if p.Extension ≠ "" then "CREATE EXTENSION " ++ quoteIdentifier p.Extension
             else "CREATE EXTENSION ") ++ " VERSION " ++ quoteIdentifier v
        | none =>
            if p.Extension ≠ "" then "CREATE EXTENSION " ++ quoteIdentifier p.Extension
            else "CREATE EXTENSION ")) ∧
    createCommand ⟨"ext1", some "2.0", none⟩ = "CREATE EXTENSION \"ext1\" VERSION \"2.0\"" ∧
    containsStr (createCommand ⟨"ext1", some "2.0", none⟩) (quoteIdentifier "ext1") = true ∧
    containsStr (createCommand ⟨"ext1", some "2.0", none⟩) (quoteIdentifier "2.0") = true ∧
    deleteCommand "foo\"bar" = "DROP EXTENSION \"foo\"\"bar\"" ∧
    containsStr (deleteCommand "foo\"bar") "foo\"bar" = false ∧
    containsStr (createCommand ⟨"foo\"bar", some "2.0", none⟩) "foo\"bar" = false :=
  ⟨fun _ => rfl, fun _ => rfl, by decide, by decide, by decide, by decide, by decide, by decide⟩

/-- `escapeQuotes` is injective: quote doubling can be undone. -/
theorem escapeQuotes_inj (xs : List Char) :
    ∀ ys, escapeQuotes xs = escapeQuotes ys → xs = ys := by
  induction xs with
  | nil =>
    intro ys h
    cases ys with
    | nil => rfl
    | cons y ys =>
      by_cases hy : y = '"' <;> simp [escapeQuotes, hy] at h
  | cons x xs ih =>
    intro ys h
    cases ys with
    | nil =>
      by_cases hx : x = '"' <;> simp [escapeQuotes, hx] at h
    | cons y ys =>
      by_cases hx : x = '"' <;> by_cases hy : y = '"'
      · subst hx; subst hy
        simp [escapeQuotes] at h
        exact congrArg (List.cons '"') (ih ys h)
      · subst hx
        simp [escapeQuotes, hy] at h
        exact absurd h.1.symm hy
      · subst hy
        simp [escapeQuotes, hx] at h
      · simp [escapeQuotes, hx, hy] at h
        exact congrArg₂ List.cons h.1 (ih ys h.2)

/-- `quoteIdentifier` is injective on NUL-free names. -/
theorem quoteIdentifier_inj (a b : String)
    (ha : ∀ c ∈ a.data, c ≠ '\x00') (hb : ∀ c ∈ b.data, c ≠ '\x00')
    (h : quoteIdentifier a = quoteIdentifier b) : a = b := by
  have ta : a.data.takeWhile (fun c => c != '\x00') = a.data :=
    List.takeWhile_eq_self_iff.2 (fun c hc => by simpa using ha c hc)
  have tb : b.data.takeWhile (fun c => c != '\x00') = b.data :=
    List.takeWhile_eq_self_iff.2 (fun c hc => by simpa using hb c hc)
  unfold quoteIdentifier at h
  rw [ta, tb] at h
  have hd : '"' :: (escapeQuotes a.data ++ ['"']) = '"' :: (escapeQuotes b.data ++ ['"']) :=
    congrArg String.data h
  have h1 : escapeQuotes a.data ++ ['"'] = escapeQuotes b.data ++ ['"'] := by
    injection hd
  have h2 : a.data = b.data :=
    escapeQuotes_inj a.data b.data (List.append_cancel_right h1)
  cases a
  cases b
  exact congrArg String.mk h2

/-- Claim C10, counterexample: with an empty desired name but a version set,
Create's command still contains a quoted identifier (the quoted version), and
two names that differ only after an embedded NUL quote to the same
identifier, so a differing external/desired name pair can still yield
commands naming the same identifier. -/
theorem c10_empty_name_counterexample :
    ('"' ∈ (createCommand ⟨"", some "2.0", none⟩).data) ∧
    createCommand ⟨"", some "2.0", none⟩ = "CREATE EXTENSION  VERSION \"2.0\"" ∧
    ("a\x00b" : String) ≠ "a\x00c" ∧
    deleteCommand "a\x00b" = deleteCommand "a\x00c" := by
  decide

/-- Claim C10, amended: Observe and Delete key their commands on the
external-name identity (Observe passes it as the lookup parameter, Delete
quotes it into the drop command) while Create builds its command from the
desired spec's name; when the external name and desired name differ and
neither contains a NUL character, the two quoted identifiers differ; Create
with an empty desired name omits the name identifier, so with the version
also unset the command is `CREATE EXTENSION ` and contains no quoted
identifier (no double-quote character) at all. -/
theorem c10_identity_keying (extName : String) (p : ExtensionParameters)
    (h1 : extName ≠ p.Extension)
    (h2 : ∀ c ∈ extName.data, c ≠ '\x00')
    (h3 : ∀ c ∈ p.Extension.data, c ≠ '\x00') :
    (observeQuery extName).parameters = [extName] ∧
    deleteCommand extName = "DROP EXTENSION " ++ quoteIdentifier extName ∧
    quoteIdentifier extName ≠ quoteIdentifier p.Extension ∧
    (p.Extension = "" → p.Version = none →
      createCommand p = "CREATE EXTENSION " ∧ ¬ '"' ∈ (createCommand p).data) := by
  refine ⟨rfl, rfl, ?_, ?_⟩
  · intro hq
    exact h1 (quoteIdentifier_inj extName p.Extension h2 h3 hq)
  · intro he hv
    have hc : createCommand p = "CREATE EXTENSION " := by
      simp [createCommand, he, hv]
    refine ⟨hc, ?_⟩
    rw [hc]
    decide

/-- Claim C10, witness for the amended theorem: external name `"liveext"`
against a desired spec with empty name and no version. -/
theorem c10_identity_keying_witness :
    (observeQuery "liveext").parameters = ["liveext"] ∧
    deleteCommand "liveext" = "DROP EXTENSION " ++ quoteIdentifier "liveext" ∧
    quoteIdentifier "liveext" ≠ quoteIdentifier "" ∧
    ((("" : String) = "") → ((none : Option String) = none) →
      createCommand ⟨"", none, none⟩ = "CREATE EXTENSION " ∧
      ¬ '"' ∈ (createCommand ⟨"", none, none⟩).data) :=
  c10_identity_keying "liveext" ⟨"", none, none⟩ (by decide) (by decide) (by decide)

end ProviderPostgreSQL
